import Mathlib

set_option maxHeartbeats 1000000

/-!
Shallow Lean embeddings of core behaviors of a Flash-player runtime:
the per-tick action queue (core/src/context.rs), the AVM1 `Number`,
`Boolean` and `String` globals (core/src/avm1/globals/*.rs), the AVM2
error objects (core/src/avm2/*), and the `BitmapSmoothing` option type
(core/src/options.rs), together with theorems settling the specified
properties of each.
-/

namespace Ruffle

/-- Modelled from the spec: IEEE-754 f64 values as the VM's coercions see
them, abstracted as NaN, the two infinities, or an exact finite value
(every finite f64 is an exact rational).  The f64 type itself and the
`as_number` coercion producing these values are not among the staged
sources. -/
inductive FloatVal where
  | nan
  | posInf
  | negInf
  | finite (q : ℚ)
  deriving DecidableEq

/-- `f64::is_finite`. -/
def FloatVal.is_finite : FloatVal → Bool
  | FloatVal.finite _ => true
  | _ => false

/-- Floor toward zero of a rational: the truncation performed by a Rust
`as`-cast on an in-range value. -/
def truncQ (q : ℚ) : ℤ :=
  if 0 ≤ q then ⌊q⌋ else -⌊-q⌋

/-- Reduce an integer modulo 2^32 into `[-2^31, 2^31)`: reinterpretation
as a two's-complement 32-bit signed value. -/
def wrapI32 (z : ℤ) : ℤ :=
  let m := z % 4294967296
  if m < 2147483648 then m else m - 4294967296

/-- Modelled from the spec (§4.1): `f64_to_wrapping_i32` "takes the floor
toward zero, then reduces modulo 2^32, reinterpreting as signed
two's-complement"; non-finite values convert to 0. -/
def f64_to_wrapping_i32 : FloatVal → ℤ
  | FloatVal.finite q => wrapI32 (truncQ q)
  | _ => 0

/-- Rust's `i32 as u32` reinterpretation of an integer already reduced to
the i32 range. -/
def i32AsU32 (z : ℤ) : ℕ :=
  (z % 4294967296).toNat

/-- Rust's wrapping negation on `i32` (what `n = -n` performs in release
builds; on `i32::MIN` it returns `i32::MIN`). -/
def wrapNegI32 (z : ℤ) : ℤ :=
  wrapI32 (-z)

/-- Modelled from the spec (§3): the AVM1 `Value` tagged union.  Object
handles are opaque arena indices. -/
inductive Value where
  | Undefined
  | Null
  | Bool (b : Bool)
  | Number (n : FloatVal)
  | String (s : String)
  | Object (handle : ℕ)
  deriving DecidableEq

/-- Modelled from the spec (§4.1): `coerce_to_string` on a number renders
NaN as "NaN" and the infinities as "Infinity"/"-Infinity"; a finite value
renders as its shortest round-trip decimal, modelled exactly for integral
values (the only finite values any claim evaluates through it) and by the
rational's own representation otherwise. -/
def coerce_to_string (v : FloatVal) : String :=
  match v with
  | FloatVal.nan => "NaN"
  | FloatVal.posInf => "Infinity"
  | FloatVal.negInf => "-Infinity"
  | FloatVal.finite q => if q.den = 1 then toString q.num else toString q

/-- The digits used in `toString`; supports radixes up to base 36
(avm1/globals/number.rs `DIGITS`). -/
def DIGITS : List Char :=
  "0123456789abcdefghijklmnopqrstuvwxyz".data

/-- The values returned by `NaN.toString(radix)` for each radix from 2 to
36 (avm1/globals/number.rs `TO_STRING_NANS`, transcribed byte for byte). -/
def TO_STRING_NANS : List String :=
  ["-/0000000000000000000000000000000",
   "-/.//./..././/0.0./0.",
   "-.000000000000000",
   "-/--,,..-,-,0,-",
   "-++-0-.00++-.",
   "-/0,/-,.///*.",
   "-.0000000000",
   "-+,)())-*).",
   "NaN",
   "-&0...0.(.",
   "-,%%.-0(&(",
   "-.(.%&,&&%",
   "-/*+.$&'-.",
   "-$()\x22**%(",
   "-(0000000",
   "-+- )!+,'",
   "--'.( -\x1F.",
   "-.)$+)\x1F--",
   "-/#%/!'.(",
   "-/,0\x1F.#'.",
   "-\x1E\x1C!+%!.",
   "-\x22%\x22\x1B!'*",
   "-%+  \x22+(",
   "-(\x1D\x1A#\x19\x1C\x19",
   "-*\x18\x1D(\x1E\x18\x18",
   "-+\x22\x1F\x19$\x1C%",
   "-,$\x1B\x1A'( ",
   "--\x1F\x1C)'((",
   "-.\x14%*$\x14(",
   "-.#0'\x12$.",
   "-.000000",
   "-/\x1B\x14\x16\x13\x1B.",
   "-/#(\x0F\x16\x15\x16",
   "-/+\x11..\x12\x19",
   "-\x0D\x1E\x1C0\x0D\x1C"]

/-- The radix selection of `Number.prototype.toString` (avm1/globals/
number.rs `to_string`): the coerced radix argument is used when
`radix >= 2.0 && radix <= 36.0` (then cast to `u32` by truncation), else
10.  Comparisons against NaN are false and `+inf <= 36.0` is false, so
every non-finite coerced radix — including the NaN an absent argument
coerces to under SWF ≥ 7, and the 0 it coerces to under SWF < 7 — selects
10. -/
def radixOf : FloatVal → ℕ
  | FloatVal.finite q => if 2 ≤ q ∧ q ≤ 36 then (truncQ q).toNat else 10
  | _ => 10

/-- The body of the digit loop of `to_string`, with an explicit loop
bound (`fuel`) making the recursion structural: while `n > 0`, take
`DIGITS[n % radix]` (least-significant digit first) and divide `n` by
the radix.  An out-of-range index is `none` (a Rust panic would occur
there); exhausted fuel or a radix below 2 is also `none` (the Rust loop
would not terminate for such a radix), though the caller only ever
passes a radix in `2..=36` and enough fuel. -/
def digitsLoopCore (radix : ℕ) : (fuel : ℕ) → (n : ℕ) → Option (List Char)
  | _, 0 => some []
  | 0, _ + 1 => none
  | fuel + 1, n + 1 =>
    if radix < 2 then none
    else
      match DIGITS.get? ((n + 1) % radix) with
      | none => none
      | some c =>
        match digitsLoopCore radix fuel ((n + 1) / radix) with
        | none => none
        | some rest => some (c :: rest)

/-- The digit loop of `to_string`: `n` iterations of fuel always suffice,
as each iteration strictly shrinks the remaining value. -/
def digitsLoop (radix : ℕ) (n : ℕ) : Option (List Char) :=
  digitsLoopCore radix n n

/-- avm1/globals/number.rs `to_string` (`Number.prototype.toString`),
with the receiver and the first argument already coerced to numbers by
`as_number` (a coercion that is not among the staged sources): `this` is
the coerced receiver, `radixArg` the coerced radix argument.  `none`
models a Rust panic; the `i32` negation is wrapping. -/
def number_to_string (this radixArg : FloatVal) : Option String :=
  let radix := radixOf radixArg
  if radix = 10 then
    some (coerce_to_string this)
  else if this.is_finite then
    let n := f64_to_wrapping_i32 this
    if n < 0 then
      match digitsLoop radix (i32AsU32 (wrapNegI32 n)) with
      | none => none
      | some ds => some (String.mk ((ds ++ ['-']).reverse))
    else if n > 0 then
      match digitsLoop radix (i32AsU32 n) with
      | none => none
      | some ds => some (String.mk ds.reverse)
    else
      some "0"
  else
    TO_STRING_NANS.get? (radix - 2)

/-- The spec's own rendering for the finite branch of `toString`: digits
of the magnitude, most-significant first, in the 0-9a-z alphabet. -/
def specNatDigits (radix : ℕ) (m : ℕ) : List Char :=
  if h : m = 0 then []
  else if radix < 2 then []
  else specNatDigits radix (m / radix) ++ [DIGITS.getD (m % radix) '0']
termination_by m
decreasing_by
  exact Nat.div_lt_self (Nat.pos_of_ne_zero h) (by omega)

/-- The spec's rendering of a converted integer in a given base: the
literal "0" for zero, otherwise a leading '-' for negative values
followed by the digits of the magnitude. -/
def specRender (radix : ℕ) (n : ℤ) : String :=
  if n = 0 then "0"
  else String.mk ((if n < 0 then ['-'] else []) ++ specNatDigits radix n.natAbs)

theorem DIGITS_length : DIGITS.length = 36 := rfl

theorem TO_STRING_NANS_length : TO_STRING_NANS.length = 35 := rfl

/-- With a radix in `2..=36` and enough fuel, the digit loop never hits
an out-of-range index and produces exactly the spec's digit string,
reversed (it collects digits least-significant first). -/
theorem digitsLoopCore_eq_spec (radix : ℕ) (h2 : 2 ≤ radix) (h36 : radix ≤ 36) :
    ∀ fuel n, n ≤ fuel →
      digitsLoopCore radix fuel n = some ((specNatDigits radix n).reverse) := by
  intro fuel
  induction fuel with
  | zero =>
    intro n hn
    have hn0 : n = 0 := Nat.le_zero.mp hn
    subst hn0
    simp [digitsLoopCore, specNatDigits]
  | succ fuel ih =>
    intro n hn
    match n with
    | 0 => simp [digitsLoopCore, specNatDigits]
    | n + 1 =>
      have hidx : (n + 1) % radix < DIGITS.length := by
        rw [DIGITS_length]
        exact lt_of_lt_of_le (Nat.mod_lt _ (by omega)) h36
      have hget : DIGITS.get? ((n + 1) % radix) =
          some (DIGITS.get ⟨(n + 1) % radix, hidx⟩) := List.get?_eq_get hidx
      have hdiv : (n + 1) / radix ≤ fuel := by
        have := Nat.div_lt_self (show 0 < n + 1 by omega) (show 1 < radix by omega)
        omega
      have hgetD : DIGITS.getD ((n + 1) % radix) '0' =
          DIGITS.get ⟨(n + 1) % radix, hidx⟩ := by
        rw [List.getD_eq_getElem?_getD, List.getElem?_eq_getElem hidx]
        rfl
      simp only [digitsLoopCore, hget]
      rw [if_neg (show ¬radix < 2 by omega), ih _ hdiv]
      conv_rhs => rw [specNatDigits]
      rw [dif_neg (Nat.succ_ne_zero n)]
      rw [if_neg (show ¬radix < 2 by omega)]
      rw [hgetD]
      simp [List.reverse_append]

/-- `digitsLoop` with its own value as fuel: the loop bound suffices. -/
theorem digitsLoop_eq_spec (radix n : ℕ) (h2 : 2 ≤ radix) (h36 : radix ≤ 36) :
    digitsLoop radix n = some ((specNatDigits radix n).reverse) :=
  digitsLoopCore_eq_spec radix h2 h36 n n le_rfl

theorem wrapI32_range (z : ℤ) :
    -2147483648 ≤ wrapI32 z ∧ wrapI32 z < 2147483648 := by
  simp only [wrapI32]
  have h1 : 0 ≤ z % 4294967296 := Int.emod_nonneg z (by norm_num)
  have h2 : z % 4294967296 < 4294967296 := Int.emod_lt_of_pos z (by norm_num)
  split_ifs <;> omega

theorem f64_to_wrapping_i32_range (v : FloatVal) :
    -2147483648 ≤ f64_to_wrapping_i32 v ∧ f64_to_wrapping_i32 v < 2147483648 := by
  cases v with
  | finite q => exact wrapI32_range _
  | nan => simp [f64_to_wrapping_i32]
  | posInf => simp [f64_to_wrapping_i32]
  | negInf => simp [f64_to_wrapping_i32]

/-- The magnitude the digit loop receives for a negative i32: wrapping
negation then `as u32` reinterpretation gives the absolute value, also
at `i32::MIN`. -/
theorem i32AsU32_wrapNeg (n : ℤ) (hlo : -2147483648 ≤ n) (hneg : n < 0) :
    i32AsU32 (wrapNegI32 n) = n.natAbs := by
  simp only [i32AsU32, wrapNegI32, wrapI32]
  split_ifs <;> omega

theorem i32AsU32_of_nonneg (n : ℤ) (h0 : 0 ≤ n) (hhi : n < 4294967296) :
    i32AsU32 n = n.natAbs := by
  simp only [i32AsU32]
  omega

theorem radixOf_natCast (r : ℕ) (h2 : 2 ≤ r) (h36 : r ≤ 36) :
    radixOf (FloatVal.finite (r : ℚ)) = r := by
  have hc : (2 : ℚ) ≤ (r : ℚ) ∧ (r : ℚ) ≤ 36 :=
    ⟨by exact_mod_cast h2, by exact_mod_cast h36⟩
  have h0 : (0 : ℚ) ≤ (r : ℚ) := Nat.cast_nonneg r
  simp [radixOf, truncQ, hc, h0, Int.floor_natCast]

/-- Whatever the coerced radix argument is, the selected radix lies in
`2..=36`. -/
theorem radixOf_mem (r : FloatVal) : 2 ≤ radixOf r ∧ radixOf r ≤ 36 := by
  cases r with
  | finite q =>
    simp only [radixOf]
    split_ifs with h
    · obtain ⟨hq2, hq36⟩ := h
      have h0 : (0 : ℚ) ≤ q := le_trans (by norm_num) hq2
      have hfl2 : (2 : ℤ) ≤ ⌊q⌋ := Int.le_floor.mpr (by exact_mod_cast hq2)
      have hfl36 : ⌊q⌋ ≤ 36 := by
        have : (⌊q⌋ : ℚ) ≤ 36 := le_trans (Int.floor_le q) hq36
        exact_mod_cast this
      simp only [truncQ, if_pos h0]
      omega
    · norm_num
  | nan => norm_num [radixOf]
  | posInf => norm_num [radixOf]
  | negInf => norm_num [radixOf]

/-- The finite branch of `to_string` agrees with the spec's base-radix
rendering of the wrapped 32-bit integer. -/
theorem number_to_string_finite (q : ℚ) (r : ℕ)
    (h2 : 2 ≤ r) (h36 : r ≤ 36) (h10 : r ≠ 10) :
    number_to_string (FloatVal.finite q) (FloatVal.finite (r : ℚ)) =
      some (specRender r (f64_to_wrapping_i32 (FloatVal.finite q))) := by
  have hrad := radixOf_natCast r h2 h36
  have hrange := f64_to_wrapping_i32_range (FloatVal.finite q)
  simp only [number_to_string, hrad, FloatVal.is_finite, if_neg h10, if_true]
  set n := f64_to_wrapping_i32 (FloatVal.finite q) with hn
  by_cases hneg : n < 0
  · rw [if_pos hneg, i32AsU32_wrapNeg n hrange.1 hneg,
      digitsLoop_eq_spec r _ h2 h36]
    simp [specRender, if_neg (show ¬n = 0 by omega), if_pos hneg,
      List.reverse_append]
  · rw [if_neg hneg]
    by_cases hpos : n > 0
    · rw [if_pos hpos, i32AsU32_of_nonneg n (by omega) (by omega),
        digitsLoop_eq_spec r _ h2 h36]
      simp [specRender, if_neg (show ¬n = 0 by omega), if_neg hneg]
    · have hz : n = 0 := by omega
      rw [if_neg hpos]
      simp [specRender, hz]

/-- A coerced radix that is non-finite or outside `[2, 36]` selects 10. -/
theorem radixOf_eq_ten (r : FloatVal)
    (h : ∀ q : ℚ, r = FloatVal.finite q → ¬(2 ≤ q ∧ q ≤ 36)) :
    radixOf r = 10 := by
  cases r with
  | finite q => simp [radixOf, if_neg (h q rfl)]
  | nan => rfl
  | posInf => rfl
  | negInf => rfl

/-- C2: with a radix argument that is absent (coercing to NaN or 0) or
coercing outside `[2, 36]`, `Number.prototype.toString` defers to
`coerce_to_string`; with a finite radix `r ∈ [2, 36]`, `r ≠ 10`, it
renders `f64_to_wrapping_i32` of the receiver in base `r` over the
0-9a-z alphabet with a leading '-' for negative values and the literal
"0" for zero; concretely `(255).toString(16) = "ff"`,
`(-255).toString(16) = "-ff"` and `(0).toString(2) = "0"`. -/
theorem number_toString_radix_behavior :
    (∀ v radixArg : FloatVal,
        (∀ q : ℚ, radixArg = FloatVal.finite q → ¬(2 ≤ q ∧ q ≤ 36)) →
        number_to_string v radixArg = some (coerce_to_string v))
    ∧ (∀ (q : ℚ) (r : ℕ), 2 ≤ r → r ≤ 36 → r ≠ 10 →
        number_to_string (FloatVal.finite q) (FloatVal.finite (r : ℚ)) =
          some (specRender r (f64_to_wrapping_i32 (FloatVal.finite q))))
    ∧ number_to_string (FloatVal.finite 255) (FloatVal.finite 16) = some "ff"
    ∧ number_to_string (FloatVal.finite (-255)) (FloatVal.finite 16) = some "-ff"
    ∧ number_to_string (FloatVal.finite 0) (FloatVal.finite 2) = some "0" := by
  refine ⟨?_, number_to_string_finite, by decide, by decide, by decide⟩
  intro v radixArg h
  simp [number_to_string, radixOf_eq_ten radixArg h]

/-- Witness for C2 at the concrete input `(255).toString(16)`. -/
theorem number_toString_radix_behavior_witness :
    number_to_string (FloatVal.finite 255) (FloatVal.finite ((16 : ℕ) : ℚ)) =
      some (specRender 16 (f64_to_wrapping_i32 (FloatVal.finite 255))) :=
  number_toString_radix_behavior.2.1 255 16 (by norm_num) (by norm_num)
    (by norm_num)

/-- C5: a non-finite receiver with a radix `r ∈ [2, 36]`, `r ≠ 10`,
yields the `TO_STRING_NANS` entry at index `r - 2`; at radix 10 the
table is never consulted, so `NaN.toString(10) = "NaN"` while
`NaN.toString(2)` is the first table entry. -/
theorem number_toString_nonfinite_table :
    (∀ v : FloatVal, v.is_finite = false →
        ∀ r : ℕ, 2 ≤ r → r ≤ 36 → r ≠ 10 →
          number_to_string v (FloatVal.finite (r : ℚ)) =
            TO_STRING_NANS.get? (r - 2))
    ∧ number_to_string FloatVal.nan (FloatVal.finite 10) = some "NaN"
    ∧ number_to_string FloatVal.nan (FloatVal.finite 2) =
        some "-/0000000000000000000000000000000" := by
  refine ⟨?_, by decide, by decide⟩
  intro v hv r h2 h36 h10
  simp [number_to_string, radixOf_natCast r h2 h36, h10, hv]

/-- Witness for C5 at the concrete input `NaN.toString(16)`. -/
theorem number_toString_nonfinite_table_witness :
    number_to_string FloatVal.nan (FloatVal.finite ((16 : ℕ) : ℚ)) =
      TO_STRING_NANS.get? (16 - 2) :=
  number_toString_nonfinite_table.1 FloatVal.nan rfl 16 (by norm_num)
    (by norm_num) (by norm_num)

/-- C10: `Number.prototype.toString` is total — every digit index
`n % radix` stays inside the 36-entry `DIGITS` alphabet, the non-finite
index `radix - 2` stays inside the 35-entry `TO_STRING_NANS` table, and
with wrapping negation even the receiver mapping to `-2^31` renders
(concretely to "-80000000" at radix 16). -/
theorem number_toString_total :
    (∀ v radixArg : FloatVal, (number_to_string v radixArg).isSome = true)
    ∧ number_to_string (FloatVal.finite (-(2 ^ 31 : ℚ))) (FloatVal.finite 16) =
        some "-80000000" := by
  refine ⟨?_, by decide⟩
  intro v radixArg
  obtain ⟨hr2, hr36⟩ := radixOf_mem radixArg
  simp only [number_to_string]
  by_cases h10 : radixOf radixArg = 10
  · simp [h10]
  · rw [if_neg h10]
    rcases v with _ | _ | _ | q
    rotate_right 1
    · have hd : ∀ m : ℕ, ∃ ds, digitsLoop (radixOf radixArg) m = some ds := by
        intro m
        exact ⟨_, digitsLoop_eq_spec _ _ hr2 hr36⟩
      simp only [FloatVal.is_finite, if_true]
      split_ifs with hneg hpos
      · obtain ⟨ds, hds⟩ := hd (i32AsU32 (wrapNegI32
          (f64_to_wrapping_i32 (FloatVal.finite q))))
        simp [hds]
      · obtain ⟨ds, hds⟩ := hd (i32AsU32 (f64_to_wrapping_i32 (FloatVal.finite q)))
        simp [hds]
      · simp
    all_goals
    · simp only [FloatVal.is_finite, Bool.false_eq_true, if_false]
      have hlt : radixOf radixArg - 2 < TO_STRING_NANS.length := by
        rw [TO_STRING_NANS_length]
        omega
      rw [List.get?_eq_get hlt]
      rfl

/-- Modelled from the spec: opaque handles for the GC'd payloads a queued
action carries (bytecode slices, display objects, objects of either VM);
their contents never influence the queue itself. -/
abbrev SwfSlice := ℕ

abbrev DisplayObject := ℕ

abbrev Avm1Object := ℕ

abbrev Avm1Value := Value

abbrev Avm2Object := ℕ

abbrev Avm2Value := Value

/-- core/src/context.rs `ActionType` (the field name `reciever` is the
source's spelling). -/
inductive ActionType where
  | Normal (bytecode : SwfSlice)
  | Initialize (bytecode : SwfSlice)
  | Construct (constructor : Option Avm1Object) (events : List SwfSlice)
  | Method (object : Avm1Object) (name : String) (args : List Avm1Value)
  | NotifyListeners (listener : String) (method : String) (args : List Avm1Value)
  | Callable2 (callable : Avm2Object) (reciever : Option Avm2Object)
      (args : List Avm2Value)
  deriving DecidableEq

/-- core/src/context.rs `ActionType::priority`. -/
def ActionType.priority : ActionType → ℕ
  | ActionType.Initialize _ => 2
  | ActionType.Construct _ _ => 1
  | _ => 0

/-- core/src/context.rs `QueuedActions`. -/
structure QueuedActions where
  clip : DisplayObject
  action_type : ActionType
  is_unload : Bool
  deriving DecidableEq

/-- core/src/context.rs `ActionQueue`: one FIFO bucket per priority
(bucket index = priority; the list head is the front of the `VecDeque`). -/
structure ActionQueue where
  action_queue : List (List QueuedActions)
  deriving DecidableEq

/-- `ActionQueue::new`: `NUM_PRIORITIES = 3` empty buckets. -/
def ActionQueue.new : ActionQueue :=
  ⟨[[], [], []]⟩

/-- `Vec::get_mut(i)` followed by an in-place update: apply `f` at index
`i` when it is in range, else leave the list unchanged. -/
def modifyAt {α : Type} (f : α → α) : ℕ → List α → List α
  | _, [] => []
  | 0, x :: xs => f x :: xs
  | n + 1, x :: xs => x :: modifyAt f n xs

/-- core/src/context.rs `ActionQueue::queue_actions`: push the action to
the back of the bucket selected by its type's priority. -/
def ActionQueue.queue_actions (q : ActionQueue) (clip : DisplayObject)
    (action_type : ActionType) (is_unload : Bool) : ActionQueue :=
  ⟨modifyAt (fun bucket => bucket ++ [⟨clip, action_type, is_unload⟩])
    action_type.priority q.action_queue⟩

/-- The reversed iteration inside `pop_action`: pop the front of the
first non-empty bucket of an (already reversed) bucket list. -/
def popFromRev :
    List (List QueuedActions) → Option QueuedActions × List (List QueuedActions)
  | [] => (none, [])
  | [] :: rest =>
    let r := popFromRev rest
    (r.1, [] :: r.2)
  | (x :: xs) :: rest => (some x, xs :: rest)

/-- core/src/context.rs `ActionQueue::pop_action`: iterate the buckets
from the highest priority down and return the front of the first
non-empty one. -/
def ActionQueue.pop_action (q : ActionQueue) :
    Option QueuedActions × ActionQueue :=
  let r := popFromRev q.action_queue.reverse
  (r.1, ⟨r.2.reverse⟩)

/-- A sequence of `queue_actions` calls, in order. -/
def enqueueList (q : ActionQueue) : List QueuedActions → ActionQueue
  | [] => q
  | a :: rest => enqueueList (q.queue_actions a.clip a.action_type a.is_unload) rest

/-- The results of `k` successive `pop_action` calls. -/
def popList : ℕ → ActionQueue → List (Option QueuedActions)
  | 0, _ => []
  | k + 1, q =>
    let r := q.pop_action
    r.1 :: popList k r.2

/-- Enqueueing distributes each action to the back of the bucket indexed
by its priority: the buckets hold the priority-0, -1 and -2 actions in
enqueue order. -/
theorem enqueueList_buckets (acts : List QueuedActions)
    (b0 b1 b2 : List QueuedActions) :
    enqueueList ⟨[b0, b1, b2]⟩ acts =
      ⟨[b0 ++ acts.filter (fun a => a.action_type.priority == 0),
        b1 ++ acts.filter (fun a => a.action_type.priority == 1),
        b2 ++ acts.filter (fun a => a.action_type.priority == 2)]⟩ := by
  induction acts generalizing b0 b1 b2 with
  | nil => simp [enqueueList]
  | cons a rest ih =>
    obtain ⟨clip, ty, unload⟩ := a
    cases ty <;>
      simp [enqueueList, ActionQueue.queue_actions, modifyAt,
        ActionType.priority, ih, List.filter]

/-- `pop_action` returns the front of the highest-priority non-empty
bucket and removes exactly that element. -/
theorem pop_action_buckets (b0 b1 b2 : List QueuedActions) :
    ActionQueue.pop_action ⟨[b0, b1, b2]⟩ =
      match b2, b1, b0 with
      | x :: xs, _, _ => (some x, ⟨[b0, b1, xs]⟩)
      | [], x :: xs, _ => (some x, ⟨[b0, xs, []]⟩)
      | [], [], x :: xs => (some x, ⟨[xs, [], []]⟩)
      | [], [], [] => (none, ⟨[[], [], []]⟩) := by
  cases b2 <;> cases b1 <;> cases b0 <;> rfl

/-- The concrete scenario of C1: Normal A, Construct B, Initialize C,
Normal D (A, B, C, D are distinct bytecode payloads on one clip). -/
def scenarioActs : List QueuedActions :=
  [⟨0, ActionType.Normal 10, false⟩,
   ⟨0, ActionType.Construct none [11], false⟩,
   ⟨0, ActionType.Initialize 12, false⟩,
   ⟨0, ActionType.Normal 13, false⟩]

/-- C1: the action queue drains in priority order with FIFO order inside
each bucket — after any sequence of `queue_actions` calls the three
buckets hold the priority-0, -1 and -2 actions in enqueue order
(`Initialize` = 2, `Construct` = 1, everything else = 0), `pop_action`
takes the front of the highest-priority non-empty bucket, the concrete
scenario Normal A, Construct B, Initialize C, Normal D pops as
C, B, A, D and then None, and popping the fresh queue gives None. -/
theorem action_queue_priority_fifo :
    (∀ acts : List QueuedActions,
        (enqueueList ActionQueue.new acts).action_queue =
          [acts.filter (fun a => a.action_type.priority == 0),
           acts.filter (fun a => a.action_type.priority == 1),
           acts.filter (fun a => a.action_type.priority == 2)])
    ∧ (∀ b0 b1 b2 : List QueuedActions,
        ActionQueue.pop_action ⟨[b0, b1, b2]⟩ =
          match b2, b1, b0 with
          | x :: xs, _, _ => (some x, ⟨[b0, b1, xs]⟩)
          | [], x :: xs, _ => (some x, ⟨[b0, xs, []]⟩)
          | [], [], x :: xs => (some x, ⟨[xs, [], []]⟩)
          | [], [], [] => (none, ⟨[[], [], []]⟩))
    ∧ (∀ s : SwfSlice, (ActionType.Initialize s).priority = 2)
    ∧ (∀ c es, (ActionType.Construct c es).priority = 1)
    ∧ (∀ s : SwfSlice, (ActionType.Normal s).priority = 0)
    ∧ popList 5 (enqueueList ActionQueue.new scenarioActs) =
        [some ⟨0, ActionType.Initialize 12, false⟩,
         some ⟨0, ActionType.Construct none [11], false⟩,
         some ⟨0, ActionType.Normal 10, false⟩,
         some ⟨0, ActionType.Normal 13, false⟩,
         none]
    ∧ (ActionQueue.new.pop_action).1 = none := by
  refine ⟨?_, pop_action_buckets, fun _ => rfl, fun _ _ => rfl, fun _ => rfl,
    by decide, rfl⟩
  intro acts
  have h := enqueueList_buckets acts [] [] []
  simp only [List.nil_append] at h
  rw [ActionQueue.new, h]

/-- Modelled from the spec (§3): a property attribute set drawn from
`{DontEnum, DontDelete, ReadOnly}` (property.rs is not among the staged
sources); `EnumSet::empty()` is the all-false set. -/
structure Attributes where
  dontDelete : Bool
  readOnly : Bool
  dontEnum : Bool
  deriving DecidableEq

/-- `EnumSet::empty()`. -/
def Attributes.empty : Attributes :=
  ⟨false, false, false⟩

/-- `DontDelete | ReadOnly | DontEnum`, the attribute set given to every
slot the claims mention. -/
def protectedAttrs : Attributes :=
  ⟨true, true, true⟩

/-- Tags naming the native Rust functions that get installed as
properties; the claims inspect which function a slot holds, not its
body (every string.rs body is an unimplemented stub). -/
inductive NativeFn where
  | char_at
  | char_code_at
  | concat
  | from_char_code
  | index_of
  | last_index_of
  | slice
  | split
  | substr
  | substring
  | to_lower_case
  | to_upper_case
  deriving DecidableEq

/-- A property slot: a data value or an installed native function. -/
inductive PropSlot where
  | data (v : Value)
  | func (f : NativeFn)
  deriving DecidableEq

/-- Modelled from the spec (§4.2): the own-property map an object
accumulates from `define_value` / `force_set_function` calls, keyed by
exact name (case normalization never applies to the distinct startup
names the claims inspect). -/
abbrev Props := List (String × PropSlot × Attributes)

/-- Modelled from the spec (§4.2): `define_value(name, value,
attributes)`, host-side creation of a data slot that bypasses
`ReadOnly`. -/
def define_value (props : Props) (name : String) (v : Value)
    (attrs : Attributes) : Props :=
  props.filter (fun e => e.1 != name) ++ [(name, PropSlot.data v, attrs)]

/-- Modelled from the spec (§4.2): `force_set_function(name, native,
attributes, fn_proto)`, installing a native function as a property. -/
def force_set_function (props : Props) (name : String) (f : NativeFn)
    (attrs : Attributes) : Props :=
  props.filter (fun e => e.1 != name) ++ [(name, PropSlot.func f, attrs)]

/-- An object's own property under a name, with its attributes. -/
def getOwnProperty (props : Props) (name : String) :
    Option (PropSlot × Attributes) :=
  (props.find? (fun e => e.1 == name)).map (fun e => e.2)

/-- `std::f64::MAX` as an exact rational, written out as an integer
literal (= (2^53 - 1) · 2^971, see `f64MAX_eq`); its shortest
round-trip decimal rendering is 1.7976931348623157e308.
`std::f64::MIN` is its negation. -/
def f64MAX : ℚ :=
  179769313486231570814527423731704356798070567525844996598917476803157260780028538760589558632766878171540458953514382464234321326889464182768467546703537516986049910576551282076245490090389328944075868508455133942304583236903222948165808559332123348274797826204144723168738177180919299881250404026184124858368

/-- The integer literal in `f64MAX` is the largest finite IEEE-754 f64,
(2^53 - 1) · 2^971. -/
theorem f64MAX_eq : f64MAX = (2 ^ 53 - 1) * 2 ^ 971 := by
  norm_num [f64MAX]

/-- core/src/avm1/globals/number.rs `create_number_object`: the own
properties installed on the `Number` constructor object by its five
`define_value` calls, in source order (the enclosing function-object
allocation is GC machinery outside the staged sources). -/
def create_number_object : Props :=
  let o : Props := []
  let o := define_value o "MAX_VALUE"
    (Value.Number (FloatVal.finite f64MAX)) protectedAttrs
  let o := define_value o "MIN_VALUE"
    (Value.Number (FloatVal.finite (-f64MAX))) protectedAttrs
  let o := define_value o "NaN" (Value.Number FloatVal.nan) protectedAttrs
  let o := define_value o "NEGATIVE_INFINITY"
    (Value.Number FloatVal.negInf) protectedAttrs
  define_value o "POSITIVE_INFINITY"
    (Value.Number FloatVal.posInf) protectedAttrs

/-- C6: the `Number` constructor object carries exactly the five class
constants, each a data slot with attributes
`{DontDelete, ReadOnly, DontEnum}`: `MAX_VALUE` is the largest finite
f64 (2^53 - 1) · 2^971 = 1.7976931348623157e308, `MIN_VALUE` its
negation (`std::f64::MIN`), `NaN` an IEEE NaN, and the two infinities
are ±∞. -/
theorem number_object_constants :
    create_number_object.map (fun e => e.1) =
      ["MAX_VALUE", "MIN_VALUE", "NaN", "NEGATIVE_INFINITY",
       "POSITIVE_INFINITY"]
    ∧ getOwnProperty create_number_object "MAX_VALUE" =
        some (PropSlot.data (Value.Number (FloatVal.finite f64MAX)),
          protectedAttrs)
    ∧ getOwnProperty create_number_object "MIN_VALUE" =
        some (PropSlot.data (Value.Number (FloatVal.finite (-f64MAX))),
          protectedAttrs)
    ∧ getOwnProperty create_number_object "NaN" =
        some (PropSlot.data (Value.Number FloatVal.nan), protectedAttrs)
    ∧ getOwnProperty create_number_object "NEGATIVE_INFINITY" =
        some (PropSlot.data (Value.Number FloatVal.negInf), protectedAttrs)
    ∧ getOwnProperty create_number_object "POSITIVE_INFINITY" =
        some (PropSlot.data (Value.Number FloatVal.posInf), protectedAttrs)
    ∧ f64MAX = (2 ^ 53 - 1) * 2 ^ 971
    ∧ protectedAttrs = ⟨true, true, true⟩ := by
  refine ⟨by decide, by decide, by decide, by decide, by decide, by decide,
    f64MAX_eq, rfl⟩

/-- core/src/avm1/globals/string.rs `create_proto`: the twelve
`force_set_function` calls installing `String.prototype`'s methods, in
source order.  Note the fourth registration uses the Rust identifier
`"from_char_code"` as the ActionScript-visible property name. -/
def string_create_proto : Props :=
  let o : Props := []
  let o := force_set_function o "charAt" NativeFn.char_at protectedAttrs
  let o := force_set_function o "charCodeAt" NativeFn.char_code_at protectedAttrs
  let o := force_set_function o "concat" NativeFn.concat protectedAttrs
  let o := force_set_function o "from_char_code" NativeFn.from_char_code
    protectedAttrs
  let o := force_set_function o "indexOf" NativeFn.index_of protectedAttrs
  let o := force_set_function o "lastIndexOf" NativeFn.last_index_of
    protectedAttrs
  let o := force_set_function o "slice" NativeFn.slice protectedAttrs
  let o := force_set_function o "split" NativeFn.split protectedAttrs
  let o := force_set_function o "substr" NativeFn.substr protectedAttrs
  let o := force_set_function o "substring" NativeFn.substring protectedAttrs
  let o := force_set_function o "toLowerCase" NativeFn.to_lower_case
    protectedAttrs
  force_set_function o "toUpperCase" NativeFn.to_upper_case protectedAttrs

/-- C7 (what the code actually does): `String.prototype` declares twelve
function properties, all with `{DontDelete, ReadOnly, DontEnum}`, but
the fourth is named `"from_char_code"`, not `"fromCharCode"` — a lookup
of `"fromCharCode"` finds nothing. -/
theorem string_proto_method_names :
    string_create_proto.map (fun e => e.1) =
      ["charAt", "charCodeAt", "concat", "from_char_code", "indexOf",
       "lastIndexOf", "slice", "split", "substr", "substring",
       "toLowerCase", "toUpperCase"]
    ∧ getOwnProperty string_create_proto "fromCharCode" = none
    ∧ getOwnProperty string_create_proto "from_char_code" =
        some (PropSlot.func NativeFn.from_char_code, protectedAttrs)
    ∧ string_create_proto.all
        (fun e =>
          e.2.2 == protectedAttrs &&
            match e.2.1 with
            | PropSlot.func _ => true
            | PropSlot.data _ => false) = true := by
  refine ⟨by decide, by decide, by decide, by decide⟩

/-- The numeric value of a non-empty all-digit character list. -/
def digitsVal (l : List Char) : Option ℕ :=
  if l = [] then none
  else if l.all Char.isDigit then
    some (l.foldl (fun acc c => acc * 10 + (c.toNat - 48)) 0)
  else none

/-- Modelled from the spec (§4.1): a minimal stand-in for the
string-to-number parse consulted by `as_bool` (an optional sign and
decimal digits; the claims only ever evaluate it on ""). -/
def parseDecimal (s : String) : Option ℚ :=
  match s.data with
  | [] => none
  | '-' :: rest => (digitsVal rest).map (fun n => -(n : ℚ))
  | '+' :: rest => (digitsVal rest).map (fun n => (n : ℚ))
  | l => (digitsVal l).map (fun n => (n : ℚ))

/-- Whether a string parses as a non-zero number. -/
def stringParsesNonzero (s : String) : Bool :=
  match parseDecimal s with
  | some q => decide (q ≠ 0)
  | none => false

/-- Modelled from the spec (§4.1): `Value::as_bool(version)` (named
without the `Value` prefix so that the `Bool` return type does not
collide with the `Value.Bool` constructor).
Undefined/Null are false; `Number(0)` and NaN are false and every other
number true; a string is true iff it parses as a non-zero number, and
under version < 7 also iff it equals "true" case-insensitively; the
Bool case is the identity (forced by §8's idempotence invariant);
objects are truthy. -/
def as_bool (version : ℕ) : Value → Bool
  | Value.Undefined => false
  | Value.Null => false
  | Value.Bool b => b
  | Value.Number v =>
    match v with
    | FloatVal.nan => false
    | FloatVal.finite q => decide (q ≠ 0)
    | FloatVal.posInf => true
    | FloatVal.negInf => true
  | Value.String s =>
    if version ≥ 7 then stringParsesNonzero s
    else (s.toLower == "true") || stringParsesNonzero s
  | Value.Object _ => true

/-- core/src/avm1/globals/boolean.rs `boolean`, the Boolean
constructor/function: coerce the first argument (or default `false`)
with `as_bool(version)`; when the receiver is a `ValueObject` (its box
is `some _`) write the coerced value into the box.  The result is
(returned value, receiver box afterwards). -/
def boolean (version : ℕ) (args : List Value) (thisBox : Option Value) :
    Value × Option Value :=
  let value :=
    match args.head? with
    | some v => Value.Bool (as_bool version v)
    | none => Value.Bool false
  (value, thisBox.map (fun _ => value))

/-- core/src/avm1/globals/boolean.rs `to_string`
(`Boolean.prototype.toString`): on a boxed receiver the body returns
`vbox.unbox().as_bool(avm.current_swf_version())` converted back into a
value — that is a `Value.Bool`, not a string; on a non-boxed receiver
it returns `Undefined`. -/
def boolean_to_string (version : ℕ) (thisBox : Option Value) : Value :=
  match thisBox with
  | some boxed => Value.Bool (as_bool version boxed)
  | none => Value.Undefined

/-- core/src/avm1/globals/boolean.rs `value_of`
(`Boolean.prototype.valueOf`): the body ignores the receiver entirely
and returns `Undefined` unconditionally. -/
def boolean_value_of (_version : ℕ) (_thisBox : Option Value) : Value :=
  Value.Undefined

/-- C3 (what the code actually does): `new Boolean(x).toString()`
returns the `Value.Bool` computed from the box by `as_bool`, never a
string — `new Boolean(1).toString()` in version 8 is `Value.Bool true`,
not the string "true" — while a non-boxed receiver gives `Undefined`. -/
theorem boolean_toString_returns_bool :
    boolean_to_string 8
        (boolean 8 [Value.Number (FloatVal.finite 1)] (some Value.Undefined)).2 =
      Value.Bool true
    ∧ boolean_to_string 8
        (boolean 8 [Value.Number (FloatVal.finite 0)] (some Value.Undefined)).2 =
      Value.Bool false
    ∧ boolean_to_string 8
        (boolean 8 [Value.String ""] (some Value.Undefined)).2 =
      Value.Bool false
    ∧ (∀ s : String,
        boolean_to_string 8
            (boolean 8 [Value.Number (FloatVal.finite 1)]
              (some Value.Undefined)).2 ≠
          Value.String s)
    ∧ boolean_to_string 8 none = Value.Undefined := by
  refine ⟨by decide, by decide, by decide, ?_, rfl⟩
  intro s
  simp [boolean, boolean_to_string, as_bool]

/-- C4 (what the code actually does): `Boolean.prototype.valueOf`
returns `Undefined` for every receiver, including a boxed
`new Boolean(true)`, instead of the boxed value. -/
theorem boolean_valueOf_returns_undefined :
    (∀ (version : ℕ) (box : Option Value),
        boolean_value_of version box = Value.Undefined)
    ∧ boolean_value_of 8 (boolean 8 [Value.Bool true] (some Value.Undefined)).2 =
        Value.Undefined
    ∧ (boolean 8 [Value.Bool true] (some Value.Undefined)).2 =
        some (Value.Bool true)
    ∧ Value.Undefined ≠ Value.Bool true := by
  exact ⟨fun _ _ => rfl, rfl, by decide, by decide⟩

/-- core/src/options.rs `BitmapSmoothing`. -/
inductive BitmapSmoothing where
  | Default
  | Always
  | Never
  deriving DecidableEq

/-- core/src/options.rs `FromStr for BitmapSmoothing`. -/
def BitmapSmoothing.from_str (s : String) : Except String BitmapSmoothing :=
  if s = "default" then Except.ok BitmapSmoothing.Default
  else if s = "always" then Except.ok BitmapSmoothing.Always
  else if s = "never" then Except.ok BitmapSmoothing.Never
  else Except.error "Invalid bitmap smoothing"

/-- core/src/options.rs `ToString for BitmapSmoothing` (the `Never` arm
emits the source's literal "n.ever"). -/
def BitmapSmoothing.to_string : BitmapSmoothing → String
  | BitmapSmoothing.Default => "default"
  | BitmapSmoothing.Always => "always"
  | BitmapSmoothing.Never => "n.ever"

/-- C9: `to_string` maps Default/Always/Never to "default"/"always"/
"n.ever"; the round trip through `from_str` recovers Default and Always
but rejects the "n.ever" that Never prints, and `from_str` accepts
exactly the strings "default", "always" and "never". -/
theorem bitmap_smoothing_roundtrip :
    BitmapSmoothing.to_string BitmapSmoothing.Default = "default"
    ∧ BitmapSmoothing.to_string BitmapSmoothing.Always = "always"
    ∧ BitmapSmoothing.to_string BitmapSmoothing.Never = "n.ever"
    ∧ BitmapSmoothing.from_str (BitmapSmoothing.to_string BitmapSmoothing.Default) =
        Except.ok BitmapSmoothing.Default
    ∧ BitmapSmoothing.from_str (BitmapSmoothing.to_string BitmapSmoothing.Always) =
        Except.ok BitmapSmoothing.Always
    ∧ BitmapSmoothing.from_str (BitmapSmoothing.to_string BitmapSmoothing.Never) =
        Except.error "Invalid bitmap smoothing"
    ∧ (∀ s : String,
        (∃ v, BitmapSmoothing.from_str s = Except.ok v) ↔
          (s = "default" ∨ s = "always" ∨ s = "never")) := by
  refine ⟨rfl, rfl, rfl, rfl, rfl, rfl, ?_⟩
  intro s
  unfold BitmapSmoothing.from_str
  split_ifs with h1 h2 h3 <;> simp_all

/-- core/src/avm2/globals/error.rs `ErrorDef`. -/
structure ErrorDef where
  id : ℤ
  name : String
  message : String
  deriving DecidableEq

/-- core/src/avm2/globals/error.rs `ERROR_1000`. -/
def ERROR_1000 : ErrorDef :=
  ⟨1000, "Error", "The system is out of memory."⟩

/-- core/src/avm2/globals/error.rs `ERROR_1001` (its id is 1069; the
message's literal braces are written as \x7b\x7d). -/
def ERROR_1001 : ErrorDef :=
  ⟨1069, "ReferenceError",
   "Property \x7b\x7d not found for \x7b\x7d and there is no default value."⟩

/-- core/src/avm2/object/error_object.rs `ErrorObjectData`: `{id, name,
message}` (the embedded GC base `ScriptObjectData` is outside the
staged sources and carries no claim-relevant state). -/
structure ErrorObjectData where
  id : ℤ
  name : String
  message : String
  deriving DecidableEq

/-- core/src/avm2/object/error_object.rs `ErrorObject::new` (the
`base_proto` argument is GC state outside the staged sources). -/
def ErrorObject.new (id : ℤ) (name message : String) : ErrorObjectData :=
  ⟨id, name, message⟩

/-- core/src/avm2/object/error_object.rs `ErrorObject::from_error_def`. -/
def ErrorObject.from_error_def (d : ErrorDef) : ErrorObjectData :=
  ⟨d.id, d.name, d.message⟩

/-- Modelled from the spec: AVM2 `coerce_to_string` on the primitive
values (Undefined renders "undefined"); an object receiver would go
through `valueOf`, which is outside the staged sources, so it is left
as a coercion error. -/
def avm2_coerce_to_string : Value → Option String
  | Value.Undefined => some "undefined"
  | Value.Null => some "null"
  | Value.Bool b => some (if b then "true" else "false")
  | Value.Number v => some (coerce_to_string v)
  | Value.String s => some s
  | Value.Object _ => none

/-- Modelled from the spec: AVM2 `coerce_to_i32` (ECMA ToInt32): coerce
to a number, floor toward zero, wrap modulo 2^32; Undefined, Null and
NaN give 0. -/
def avm2_coerce_to_i32 : Value → Option ℤ
  | Value.Undefined => some 0
  | Value.Null => some 0
  | Value.Bool b => some (if b then 1 else 0)
  | Value.Number v => some (f64_to_wrapping_i32 v)
  | Value.String s =>
    some (match parseDecimal s with
      | some q => wrapI32 (truncQ q)
      | none => 0)
  | Value.Object _ => none

/-- core/src/avm2/object/error_object.rs `ErrorObject::construct`:
message = arg0 (defaulting to Undefined) coerced to a string, id = arg1
(defaulting to Undefined) coerced to i32, name = the constructing
object's own name. -/
def ErrorObject.construct (self : ErrorObjectData) (args : List Value) :
    Option ErrorObjectData :=
  match avm2_coerce_to_string (args.getD 0 Value.Undefined) with
  | none => none
  | some message =>
    match avm2_coerce_to_i32 (args.getD 1 Value.Undefined) with
    | none => none
    | some id => some (ErrorObject.new id self.name message)

/-- C8: an AVM2 error object carries `{id, name, message}`;
`from_error_def` copies the `ErrorDef`'s three fields (the table entry
for id 1000 has name "Error" and message "The system is out of
memory."), and `construct` builds an object whose message is arg0
coerced to a string (Undefined when absent, rendering "undefined"),
whose id is arg1 coerced to i32 (0 when absent), and whose name is the
constructing object's own name. -/
theorem error_object_construction :
    (∀ d : ErrorDef, ErrorObject.from_error_def d = ⟨d.id, d.name, d.message⟩)
    ∧ ErrorObject.from_error_def ERROR_1000 =
        ⟨1000, "Error", "The system is out of memory."⟩
    ∧ (∀ (self : ErrorObjectData) (args : List Value) (m : String) (i : ℤ),
        avm2_coerce_to_string (args.getD 0 Value.Undefined) = some m →
        avm2_coerce_to_i32 (args.getD 1 Value.Undefined) = some i →
        ErrorObject.construct self args = some ⟨i, self.name, m⟩)
    ∧ (∀ self : ErrorObjectData,
        ErrorObject.construct self [] = some ⟨0, self.name, "undefined"⟩) := by
  refine ⟨fun d => rfl, rfl, ?_, fun self => rfl⟩
  intro self args m i hm hi
  simp only [List.getD_eq_getElem?_getD] at hm hi
  simp [ErrorObject.construct, List.getD_eq_getElem?_getD, hm, hi,
    ErrorObject.new]

/-- Witness for C8 at the concrete input
`new Error("out of memory", 1000)` on a constructor named "Error". -/
theorem error_object_construction_witness :
    ErrorObject.construct ⟨0, "Error", ""⟩
        [Value.String "out of memory", Value.Number (FloatVal.finite 1000)] =
      some ⟨1000, "Error", "out of memory"⟩ :=
  error_object_construction.2.2.1 ⟨0, "Error", ""⟩
    [Value.String "out of memory", Value.Number (FloatVal.finite 1000)]
    "out of memory" 1000 rfl (by decide)

end Ruffle
